import Mathlib

/-!
# sn-dotfiles: the reconciler (`sync.go`) and the tracking remover (`remove.go`)

A shallow embedding of `Sync`/`sync` and `Remove`/`remove`.

* Go slices are Lean lists (a nil slice and a zero-length slice are both `[]`).
* A Go `error` is `Option GoError` (`none` is `nil`); a `(value, error)` result of a
  collaborator is an `Except`.
* Everything the two files call but do not define (`get`, `preflight`, `diff`, `push`,
  `pull`, `checkPathsExist`, `getItemsToRemove`, `findEmptyTags`, `dedupe`, the `gosn`
  library and the colour/column printers) is a field of `Collab`.  Collaborators that touch
  the remote store, the file system or shared memory are functions of an abstract world `W`.
* Every call to such a collaborator is appended to `St.calls`, and every `fmt.Println`
  to `St.out`, so that "is never invoked" and "is invoked once" are statements about lists.
-/

namespace SnDotfiles

/-! ## Data model -/

/-- Go `error` values, identified by what `Error()` returns. -/
structure GoError where
  Error : String
deriving DecidableEq, Repr

/-- Go `errors.New`. -/
def errors.New (text : String) : GoError := ⟨text⟩

/-- Go `strings.Contains`: `substr` occurs somewhere inside `s`. -/
def strings.Contains (s substr : String) : Bool :=
  s.data.tails.any (fun t => substr.data.isPrefixOf t)

/-- Go `strings.HasSuffix`. -/
def strings.HasSuffix (s suffix : String) : Bool :=
  suffix.data.isSuffixOf s.data

/-- The `gosn.Session` record, with the fields `helpers_test.go` fills in. -/
structure Session where
  Server : String
  Token : String
  Mk : String
  Ak : String
deriving DecidableEq, Repr

/-- The `gosn.Item` record.  `Content` is an interface value in Go (a pointer to the note or
tag content, see `note.Content = nContent` in `helpers_test.go`), so here it is an address:
calling `Content.SetText` changes the world, never the `Item` value that holds the address.
`UpdatedAt` is the instant the timestamp string of the Go field denotes. -/
structure Item where
  UUID : String
  Content : Nat
  ContentType : String
  Deleted : Bool
  UpdatedAt : Int
deriving DecidableEq, Repr

/-- Go `gosn.Items`. -/
abbrev Items := List Item

/-- An item as submitted to the remote store: an encrypted payload and a deletion flag. -/
structure EncryptedItem where
  UUID : String
  Content : String
  Deleted : Bool
deriving DecidableEq, Repr

/-- Go `gosn.EncryptedItems`. -/
abbrev EncryptedItems := List EncryptedItem

/-- Go `gosn.PutItemsInput`, as built in `remove`. -/
structure PutItemsInput where
  Items : EncryptedItems
  Session : Session
deriving DecidableEq, Repr

/-- One tag with the notes that reference it (`tagWithNotes` in `helpers_test.go`). -/
structure tagWithNotes where
  tag : Item
  notes : List Item
deriving DecidableEq, Repr

/-- The tracked relationship. -/
abbrev tagsWithNotes := List tagWithNotes

/-- Modelled from the spec: the values of `ItemDiff.diff` (the constants `identical`,
`localNewer`, `remoteNewer`, `localMissing` and `untracked`; their declaration is not in the
repository files at hand). -/
inductive DiffKind where
  | identical
  | localNewer
  | remoteNewer
  | localMissing
  | untracked
deriving DecidableEq, Repr

/-- Modelled from the spec: the `ItemDiff` record (its declaration is not in the
repository files at hand; the fields are the ones `sync.go` and `helpers_test.go` read).  The
Go field `local` is `local_` here. -/
structure ItemDiff where
  tagTitle : String
  homeRelPath : String
  path : String
  noteTitle : String
  diff : DiffKind
  remote : Item
  local_ : String
deriving DecidableEq, Repr

/-- A call made to a collaborator, in the order the calls happen. -/
inductive Call where
  | checkPathsExist (paths : List String)
  | get (session : Session)
  | diff (twn : tagsWithNotes) (home : String) (paths : List String)
  | SetText (item : Item) (text : String)
  | push (session : Session) (itemDiffs : List ItemDiff)
  | pull (itemDiffs : List ItemDiff)
  | Encrypt (items : Items) (mk ak : String)
  | PutItems (pii : PutItemsInput)
deriving DecidableEq, Repr

/-- Everything `sync.go` and `remove.go` call without defining it. -/
structure Collab (W : Type) where
  get : Session → W → Except GoError tagsWithNotes × W
  preflight : tagsWithNotes → Option GoError
  diff : tagsWithNotes → String → List String → W → Except GoError (List ItemDiff) × W
  SetText : Item → String → W → W
  push : Session → List ItemDiff → W → Option GoError × W
  pull : List ItemDiff → W → Option GoError × W
  dedupe : List String → List String
  checkPathsExist : List String → W → Option GoError × W
  getItemsToRemove : String → String → tagsWithNotes → String × Items
  findEmptyTags : tagsWithNotes → Items → Items
  DeDupe : Items → Items
  Encrypt : Items → String → String → W → Except GoError EncryptedItems × W
  PutItems : PutItemsInput → W → Option GoError × W
  addDot : String → String
  bold : String → String
  green : String → String
  yellow : String → String
  SimpleFormat : List String → String

/-- The state one invocation runs in: the world, the calls made so far, the lines printed. -/
structure St (W : Type) where
  world : W
  calls : List Call
  out : List String

/-- Record a call and the world it leaves. -/
def St.step {W : Type} (st : St W) (call : Call) (w : W) : St W :=
  { st with world := w, calls := st.calls ++ [call] }

/-- Go `fmt.Println`. -/
def St.Println {W : Type} (st : St W) (line : String) : St W :=
  { st with out := st.out ++ [line] }

/-- An invocation starts with no call made and nothing printed. -/
def St.init {W : Type} (w : W) : St W := ⟨w, [], []⟩

/-! ## `sync.go` -/

/-- The local variables the classification loop of `sync` updates. -/
structure SyncLoop (W : Type) where
  itemsToPush : List ItemDiff
  itemsToPull : List ItemDiff
  itemsToSync : Bool
  st : St W

/-- One iteration of `for _, itemDiff := range itemDiffs { switch itemDiff.diff ... }`. -/
def syncLoopBody {W : Type} (c : Collab W) (acc : SyncLoop W) (itemDiff : ItemDiff) :
    SyncLoop W :=
  match itemDiff.diff with
  | .localNewer =>
    { itemsToPush := acc.itemsToPush ++ [itemDiff]
      itemsToPull := acc.itemsToPull
      itemsToSync := true
      st := acc.st.step (.SetText itemDiff.remote itemDiff.local_)
        (c.SetText itemDiff.remote itemDiff.local_ acc.st.world) }
  | .localMissing =>
    { acc with itemsToPull := acc.itemsToPull ++ [itemDiff], itemsToSync := true }
  | .remoteNewer =>
    { acc with itemsToPull := acc.itemsToPull ++ [itemDiff], itemsToSync := true }
  | _ => acc

/-- The summary line of one pushed item. -/
def pushLine {W : Type} (c : Collab W) (pushItem : ItemDiff) : String :=
  c.bold (c.addDot pushItem.homeRelPath) ++ " | " ++ c.green "pushed"

/-- The summary line of one pulled item. -/
def pullLine {W : Type} (c : Collab W) (pullItem : ItemDiff) : String :=
  c.bold (c.addDot pullItem.homeRelPath) ++ " | " ++ c.green "pulled" ++ "\n"

/-- Go `sync`: returns `(noPushed, noPulled, err)`. -/
def sync {W : Type} (c : Collab W) (session : Session) (twn : tagsWithNotes) (home : String)
    (quiet : Bool) (st : St W) : (Nat × Nat × Option GoError) × St W :=
  match c.diff twn home [] st.world with
  | (.error err, w) =>
    let st := st.step (.diff twn home []) w
    if strings.Contains err.Error "tags with notes not supplied" then
      ((0, 0, some (errors.New "no remote dotfiles found")), st)
    else
      ((0, 0, some err), st)
  | (.ok itemDiffs, w) =>
    let st := st.step (.diff twn home []) w
    let l := itemDiffs.foldl (syncLoopBody c) ⟨[], [], false, st⟩
    if !l.itemsToSync then
      ((0, 0, none), if !quiet then l.st.Println (c.bold "nothing to do") else l.st)
    else
      -- push
      let pushed : (Nat × Option GoError) × St W :=
        if l.itemsToPush.length > 0 then
          let r := c.push session l.itemsToPush l.st.world
          ((l.itemsToPush.length, r.1), l.st.step (.push session l.itemsToPush) r.2)
        else ((0, none), l.st)
      match pushed with
      | ((noPushed, some err), st) => ((noPushed, 0, some err), st)
      | ((noPushed, none), st) =>
        let res := List.replicate l.itemsToPush.length "" ++ l.itemsToPush.map (pushLine c)
        -- pull
        let r := c.pull l.itemsToPull st.world
        let st := st.step (.pull l.itemsToPull) r.2
        match r.1 with
        | some err => ((noPushed, 0, some err), st)
        | none =>
          let res := res ++ l.itemsToPull.map (pullLine c)
          ((noPushed, l.itemsToPull.length, none),
            if !quiet then st.Println (c.SimpleFormat res) else st)

/-- Go `Sync`: returns `(noPushed, noPulled, err)`. -/
def Sync {W : Type} (c : Collab W) (session : Session) (home : String) (quiet : Bool)
    (st : St W) : (Nat × Nat × Option GoError) × St W :=
  match c.get session st.world with
  | (.error err, w) => ((0, 0, some err), st.step (.get session) w)
  | (.ok remote, w) =>
    let st := st.step (.get session) w
    match c.preflight remote with
    | some err => ((0, 0, some err), st)
    | none => sync c session remote home quiet st

/-! ## `remove.go` -/

/-- Go `stripTrailingSlash`. -/
def stripTrailingSlash (inp : String) : String :=
  if strings.HasSuffix inp "/" then ⟨inp.data.dropLast⟩ else inp

/-- Go `remove`: marks every item deleted and submits them as one batch. -/
def remove {W : Type} (c : Collab W) (session : Session) (items : Items) (st : St W) :
    Option GoError × St W :=
  let itemsToRemove : Items :=
    items.foldl (fun acc item => acc ++ [{ item with Deleted := true }]) []
  if itemsToRemove = [] then (none, st)
  else
    match c.Encrypt itemsToRemove session.Mk session.Ak st.world with
    | (.error err, w) => (some err, st.step (.Encrypt itemsToRemove session.Mk session.Ak) w)
    | (.ok encItemsToRemove, w) =>
      let st := st.step (.Encrypt itemsToRemove session.Mk session.Ak) w
      let pii : PutItemsInput := { Items := encItemsToRemove, Session := session }
      let r := c.PutItems pii st.world
      (r.1, st.step (.PutItems pii) r.2)

/-- The local variables the path loop of `Remove` updates. -/
structure RemoveLoop where
  results : List String
  notesToRemove : Items
  notTracked : Nat
deriving DecidableEq, Repr

/-- One iteration of `for _, path := range paths { ... switch { ... } }` in `Remove`. -/
def removeLoopBody {W : Type} (c : Collab W) (home : String) (twn : tagsWithNotes)
    (acc : RemoveLoop) (path : String) : RemoveLoop :=
  let homeRelPath := (c.getItemsToRemove path home twn).1
  let matchingItems := (c.getItemsToRemove path home twn).2
  let boldHomeRelPath := c.bold (stripTrailingSlash homeRelPath)
  if matchingItems.length = 0 then
    { acc with
      results := acc.results ++ [boldHomeRelPath ++ " | " ++ c.yellow "not tracked"]
      notTracked := acc.notTracked + 1 }
  else if matchingItems.length = 1 then
    { acc with
      results := acc.results ++ [boldHomeRelPath ++ " | " ++ c.green "removed"]
      notesToRemove := acc.notesToRemove ++ matchingItems }
  else
    { acc with
      results := acc.results ++ [boldHomeRelPath ++ " (" ++ toString matchingItems.length
        ++ " instances) | " ++ c.green "removed"]
      notesToRemove := acc.notesToRemove ++ matchingItems }

/-- Go `Remove`: returns `(notesremoved, tagsRemoved, notTracked, err)`. -/
def Remove {W : Type} (c : Collab W) (session : Session) (home : String)
    (paths : List String) (quiet : Bool) (st : St W) :
    (Nat × Nat × Nat × Option GoError) × St W :=
  -- remove any duplicate paths
  let paths := c.dedupe paths
  -- verify paths before delete
  match c.checkPathsExist paths st.world with
  | (some err, w) => ((0, 0, 0, some err), st.step (.checkPathsExist paths) w)
  | (none, w) =>
    let st := st.step (.checkPathsExist paths) w
    match c.get session st.world with
    | (.error err, w) => ((0, 0, 0, some err), st.step (.get session) w)
    | (.ok twn, w) =>
      let st := st.step (.get session) w
      match c.preflight twn with
      | some err => ((0, 0, 0, some err), st)
      | none =>
        let l := paths.foldl (removeLoopBody c home twn) ⟨[], [], 0⟩
        -- dedupe any notes to remove
        let notesToRemove :=
          if l.notesToRemove ≠ [] then c.DeDupe l.notesToRemove else l.notesToRemove
        -- find any empty tags to delete
        let emptyTags := c.findEmptyTags twn notesToRemove
        -- dedupe any tags to remove
        let emptyTags := if emptyTags ≠ [] then c.DeDupe emptyTags else emptyTags
        -- add empty tags to list of items to remove
        let itemsToRemove := notesToRemove ++ emptyTags
        match remove c session itemsToRemove st with
        | (some err, st) => ((0, 0, l.notTracked, some err), st)
        | (none, st) =>
          ((notesToRemove.length, emptyTags.length, l.notTracked, none),
            if !quiet then st.Println (c.SimpleFormat l.results) else st)

/-! ## What the calls of a run were -/

/-- The call is a `push`. -/
def Call.isPush : Call → Bool
  | .push _ _ => true
  | _ => false

/-- The call is a `pull`. -/
def Call.isPull : Call → Bool
  | .pull _ => true
  | _ => false

/-- The call is a `PutItems`, the one submission to the remote store `remove.go` makes. -/
def Call.isPutItems : Call → Bool
  | .PutItems _ => true
  | _ => false

/-- The diff is classified `localNewer`. -/
def ItemDiff.toPush (d : ItemDiff) : Bool := d.diff = .localNewer

/-- The diff is classified `remoteNewer` or `localMissing`. -/
def ItemDiff.toPull (d : ItemDiff) : Bool := d.diff = .remoteNewer || d.diff = .localMissing

/-- The world after `SetText` has staged the local text of every diff to push. -/
def stageAll {W : Type} (c : Collab W) (itemDiffs : List ItemDiff) (w : W) : W :=
  (itemDiffs.filter ItemDiff.toPush).foldl (fun w d => c.SetText d.remote d.local_ w) w

/-- The `SetText` calls of the classification loop, one per diff to push. -/
def stageCalls (itemDiffs : List ItemDiff) : List Call :=
  (itemDiffs.filter ItemDiff.toPush).map (fun d => Call.SetText d.remote d.local_)

/-- The world `pull` is called in: after the staging and, when there is something to push,
after `push`. -/
def worldBeforePull {W : Type} (c : Collab W) (session : Session) (itemDiffs : List ItemDiff)
    (w : W) : W :=
  if itemDiffs.filter ItemDiff.toPush = [] then stageAll c itemDiffs w
  else (c.push session (itemDiffs.filter ItemDiff.toPush) (stageAll c itemDiffs w)).2

/-- The calls a run made, given the state it started from. -/
def callsSince {W : Type} (st0 st : St W) : List Call :=
  st.calls.drop st0.calls.length

/-! ## Helpers modelled from the spec

`sync.go` and `remove.go` call these, but their code is not in the repository files at
hand.  The theorems about `sync`, `Sync`, `remove` and `Remove` hold for every `Collab`; the definitions
below say what the spec requires of the helpers and are what the worked examples run. -/

/-- The content an `Item` points to: a title and, for a note, its text. -/
structure NoteContent where
  Title : String
  Text : String
deriving DecidableEq, Repr

/-- A regular local file: its bytes and its modification time. -/
structure LocalFile where
  content : String
  modTime : Int
deriving DecidableEq, Repr

/-- Modelled from the spec: `dedupe` (§4.6 step 1, `TestDeDupe`): stable, the first occurrence
of every path is kept, exact string match. -/
def dedupe : List String → List String
  | [] => []
  | x :: xs => x :: (dedupe xs).filter (fun y => y ≠ x)

/-- Modelled from the spec: `Items.DeDupe` of `gosn` (§4.6 steps 5 and 6, "deduplicate by item
identity"): the first item of every UUID is kept. -/
def Items.DeDupe : Items → Items
  | [] => []
  | x :: xs => x :: (Items.DeDupe xs).filter (fun y => y.UUID ≠ x.UUID)

/-- Modelled from the spec: `findEmptyTags` (§4.6 step 6): the tags of the relationship whose
note set becomes empty when the matched notes are removed from it: the tag has a note, and
every note it has is one of the matched notes.  A tag that had no note before the removal
does not become empty by it, so nothing is staged when nothing matched (§8).  Notes are
compared by identity (UUID). -/
def findEmptyTags (twn : tagsWithNotes) (notesToRemove : Items) : Items :=
  (twn.filter (fun t =>
    !t.notes.isEmpty &&
      (t.notes.filter (fun n => !notesToRemove.any (fun r => r.UUID = n.UUID))).isEmpty)).map
    (fun t => t.tag)

/-- The first title that occurs twice in a list of titles. -/
def firstDuplicate : List String → Option String
  | [] => none
  | x :: xs => if x ∈ xs then some x else firstDuplicate xs

/-- Modelled from the spec: `preflight` (§4.3): the note titles of every tag are pairwise
distinct, else `DuplicateNoteTitle` naming the tag and the title. -/
def preflight (store : Nat → NoteContent) (twn : tagsWithNotes) : Option GoError :=
  twn.findSome? (fun t =>
    (firstDuplicate (t.notes.map (fun n => (store n.Content).Title))).map (fun title =>
      errors.New ("DuplicateNoteTitle: " ++ (store t.tag.Content).Title ++ ": " ++ title)))

/-- Modelled from the spec: `checkPathsExist` (§4.6 step 2): every path exists locally, else
`PathNotFound` naming all the missing paths. -/
def checkPathsExist (pathExists : String → Bool) (paths : List String) : Option GoError :=
  if paths.filter (fun p => !pathExists p) = [] then none
  else some (errors.New
    ("PathNotFound: " ++ ", ".intercalate (paths.filter (fun p => !pathExists p))))

/-- Modelled from the spec: the reserved root tag title, `DotFilesTag` in
`helpers_test.go`. -/
def DotFilesTag : String := "dotfiles"

/-- Modelled from the spec: `stripHome` (`TestStripHome`): the home-relative form of a
path under `home`, any other path unchanged. -/
def stripHome (inp home : String) : String :=
  if home ≠ "" ∧ (home.data ++ ['/']).isPrefixOf inp.data then
    ⟨inp.data.drop (home.data.length + 1)⟩
  else inp

/-- Modelled from the spec: `tagTitleToFSDIR` (§4.1 `tagTitleToPath`, the inverse of
`pathToTagTitle`): the directory a tag stands for, and whether it is the home directory.  A
title outside the reserved subtree does not occur in a tracked relationship (§4.2). -/
def tagTitleToFSDIR (title home : String) : Except GoError (String × Bool) :=
  if home = "" then .error (errors.New "home directory required")
  else if title = "" then .error (errors.New "tag title required")
  else if title = DotFilesTag then .ok (home ++ "/", true)
  else if (DotFilesTag.data ++ ['.']).isPrefixOf title.data then
    .ok (home ++ "/" ++ ⟨(title.data.drop (DotFilesTag.data.length + 1)).map
      (fun ch => if ch = '.' then '/' else ch)⟩ ++ "/", false)
  else .error (errors.New "tag title outside the reserved subtree")

/-- Modelled from the spec: `getItemsToRemove` (§4.6 step 4): the home-relative form of the
path, and all the remote notes whose derived local path equals the path. -/
def getItemsToRemove (store : Nat → NoteContent) (path home : String) (twn : tagsWithNotes) :
    String × Items :=
  (stripHome path home,
    twn.flatMap (fun t =>
      match tagTitleToFSDIR (store t.tag.Content).Title home with
      | .ok (dir, _) => t.notes.filter (fun n => dir ++ (store n.Content).Title = path)
      | .error _ => []))

/-- Modelled from the spec: `compareNoteWithFile` (§4.4 `compareFileToNote`, whose code is
not in the repository files at hand; `helpers_test.go` calls it).  `fs` is the local file system,
`store` the content the remote items point to. -/
def compareNoteWithFile (fs : String → Option LocalFile) (store : Nat → NoteContent)
    (tagTitle path home : String) (remote : Item) (notePresentRemotely : Bool) : ItemDiff :=
  let itemDiff (diff : DiffKind) (localStr : String) : ItemDiff :=
    { tagTitle := tagTitle
      homeRelPath := stripHome path home
      path := path
      noteTitle := (store remote.Content).Title
      diff := diff
      remote := remote
      local_ := localStr }
  match fs path with
  | none => itemDiff .localMissing ""
  | some file =>
    if !notePresentRemotely then itemDiff .untracked file.content
    else if file.content = (store remote.Content).Text then itemDiff .identical file.content
    else if file.modTime > remote.UpdatedAt then itemDiff .localNewer file.content
    else itemDiff .remoteNewer file.content

/-- The classification as the spec words it (§8): a function of whether the local file is
there, its content `L` and modification time `lt`, the remote text `R` and the remote
timestamp `rt`. -/
def classification (filePresent : Bool) (L R : String) (lt rt : Int) : DiffKind :=
  if !filePresent then .localMissing
  else if L = R then .identical
  else if lt > rt then .localNewer
  else .remoteNewer

/-! ## A worked example: a scripted world -/

/-- A world for the worked examples: the local paths that exist, what the remote store and
the local collaborators answer, and what has been written so far. -/
structure World where
  files : List String
  remote : Except GoError tagsWithNotes
  diffs : Except GoError (List ItemDiff)
  pushErr : Option GoError
  pullErr : Option GoError
  encErr : Option GoError
  putErr : Option GoError
  texts : List (Nat × String)
  submitted : List PutItemsInput

/-- The collaborators of the worked examples: the helpers are the ones modelled from the
spec, the remote store and the file system answer as the world scripts them. -/
def exampleCollab (store : Nat → NoteContent) : Collab World where
  get := fun _ w => (w.remote, w)
  preflight := preflight store
  diff := fun _ _ _ w => (w.diffs, w)
  SetText := fun item text w => { w with texts := w.texts ++ [(item.Content, text)] }
  push := fun _ _ w => (w.pushErr, w)
  pull := fun _ w => (w.pullErr, w)
  dedupe := dedupe
  checkPathsExist := fun paths w => (checkPathsExist (fun p => p ∈ w.files) paths, w)
  getItemsToRemove := getItemsToRemove store
  findEmptyTags := findEmptyTags
  DeDupe := Items.DeDupe
  Encrypt := fun items mk _ w =>
    match w.encErr with
    | some err => (.error err, w)
    | none => (.ok (items.map (fun i => ⟨i.UUID, mk ++ ":" ++ i.UUID, i.Deleted⟩)), w)
  PutItems := fun pii w =>
    match w.putErr with
    | some err => (some err, w)
    | none => (none, { w with submitted := w.submitted ++ [pii] })
  addDot := fun s => "." ++ s
  bold := id
  green := id
  yellow := id
  SimpleFormat := fun lines => "\n".intercalate lines

/-- The session of the worked examples. -/
def exampleSession : Session := ⟨"https://sync.standardnotes.org", "token", "mk", "ak"⟩

/-- The contents of the worked examples: the root tag, two sub-tags and two notes. -/
def exampleStore (address : Nat) : NoteContent :=
  match address with
  | 0 => ⟨"dotfiles", ""⟩
  | 1 => ⟨"dotfiles.fruit", ""⟩
  | 2 => ⟨"dotfiles.food", ""⟩
  | 3 => ⟨"apple", "apple content"⟩
  | _ => ⟨"lemon", "lemon content 2"⟩

/-- The root tag. -/
def rootTag : Item := ⟨"tag-0", 0, "Tag", false, 0⟩

/-- The tag `dotfiles.fruit`. -/
def fruitTag : Item := ⟨"tag-1", 1, "Tag", false, 0⟩

/-- The tag `dotfiles.food`. -/
def foodTag : Item := ⟨"tag-2", 2, "Tag", false, 0⟩

/-- The note `apple`. -/
def appleNote : Item := ⟨"note-3", 3, "Note", false, 100⟩

/-- The note `lemon`. -/
def lemonNote : Item := ⟨"note-4", 4, "Note", false, 200⟩

/-- A world with the given local paths and remote relationship in which every remote call
succeeds. -/
def exampleWorld (files : List String) (twn : tagsWithNotes) (diffs : List ItemDiff) : World :=
  { files := files, remote := .ok twn, diffs := .ok diffs, pushErr := none, pullErr := none,
    encErr := none, putErr := none, texts := [], submitted := [] }

/-- A diff of the note `lemon` with the given classification. -/
def lemonDiff (diff : DiffKind) : ItemDiff :=
  ⟨"dotfiles.fruit", "fruit/lemon", "/home/u/fruit/lemon", "lemon", diff, lemonNote,
    "lemon content"⟩

/-- A diff of the note `apple` with the given classification. -/
def appleDiff (diff : DiffKind) : ItemDiff :=
  ⟨"dotfiles.fruit", "fruit/apple", "/home/u/fruit/apple", "apple", diff, appleNote,
    "apple content"⟩

/-- Four diffs, one of each class `sync` tells apart. -/
def exampleDiffs : List ItemDiff :=
  [appleDiff .identical, lemonDiff .localNewer, appleDiff .remoteNewer,
    lemonDiff .localMissing]

/-- A relationship with the root tag, which has no note of its own, and one sub-tag with its
only note. -/
def rootAndFruit : tagsWithNotes := [⟨rootTag, []⟩, ⟨fruitTag, [appleNote]⟩]

/-- A relationship in which two tags have one note each. -/
def fruitAndFood : tagsWithNotes := [⟨fruitTag, [appleNote]⟩, ⟨foodTag, [lemonNote]⟩]

/-- A world in which `diff` fails with the given message. -/
def diffFails (message : String) : World :=
  { exampleWorld [] [] [] with diffs := .error (errors.New message) }

/-- A world in which `push` fails. -/
def pushFails : World :=
  { exampleWorld [] fruitAndFood exampleDiffs with pushErr := some (errors.New "push failed") }

/-- The world of the `Remove` examples: the given paths exist and every call succeeds. -/
def removeWorld (files : List String) (twn : tagsWithNotes) : World :=
  exampleWorld files twn []

/-- The batch `Encrypt` of the examples returns for the note `apple` and the tag
`dotfiles.fruit`, both deleted. -/
def appleBatch : EncryptedItems :=
  [⟨"note-3", "mk:note-3", true⟩, ⟨"tag-1", "mk:tag-1", true⟩]

/-- A world in which `pull` fails. -/
def pullFails : World :=
  { exampleWorld [] fruitAndFood exampleDiffs with pullErr := some (errors.New "pull failed") }

/-- A world in which the submission of `Remove` fails. -/
def putFails : World :=
  { removeWorld ["/home/u/fruit/apple"] fruitAndFood with
    putErr := some (errors.New "put failed") }

/-! ## The classification loop of `sync` -/

theorem syncLoopBody_eq {W : Type} (c : Collab W) (acc : SyncLoop W) (d : ItemDiff) :
    syncLoopBody c acc d =
      { itemsToPush := acc.itemsToPush ++ [d].filter ItemDiff.toPush
        itemsToPull := acc.itemsToPull ++ [d].filter ItemDiff.toPull
        itemsToSync := acc.itemsToSync || (d.toPush || d.toPull)
        st :=
          { world := stageAll c [d] acc.st.world
            calls := acc.st.calls ++ stageCalls [d]
            out := acc.st.out } } := by
  obtain ⟨ps, pl, b, w, cs, o⟩ := acc
  cases h : d.diff <;>
    simp [syncLoopBody, h, ItemDiff.toPush, ItemDiff.toPull, stageAll, stageCalls, St.step]

theorem syncLoop_fold {W : Type} (c : Collab W) (ds : List ItemDiff) (acc : SyncLoop W) :
    ds.foldl (syncLoopBody c) acc =
      { itemsToPush := acc.itemsToPush ++ ds.filter ItemDiff.toPush
        itemsToPull := acc.itemsToPull ++ ds.filter ItemDiff.toPull
        itemsToSync := acc.itemsToSync || ds.any (fun d => d.toPush || d.toPull)
        st :=
          { world := stageAll c ds acc.st.world
            calls := acc.st.calls ++ stageCalls ds
            out := acc.st.out } } := by
  induction ds generalizing acc with
  | nil => simp [stageAll, stageCalls]
  | cons d ds ih =>
    rw [List.foldl_cons, ih, syncLoopBody_eq]
    simp only [stageAll, stageCalls, List.filter_cons, List.filter_nil, List.any_cons,
      Bool.or_assoc, List.append_assoc]
    cases hp : d.toPush <;> cases hl : d.toPull <;> simp

theorem any_sync_eq (ds : List ItemDiff) :
    ds.any (fun d => d.toPush || d.toPull) =
      !(decide (ds.filter ItemDiff.toPush = []) && decide (ds.filter ItemDiff.toPull = [])) := by
  induction ds with
  | nil => simp
  | cons d ds ih =>
    rw [List.any_cons, ih]
    cases hp : d.toPush <;> cases hl : d.toPull <;> simp [List.filter_cons, hp, hl]

theorem length_filter_toPull (ds : List ItemDiff) :
    (ds.filter ItemDiff.toPull).length =
      ds.countP (fun d => d.diff = .remoteNewer) + ds.countP (fun d => d.diff = .localMissing) := by
  induction ds with
  | nil => simp
  | cons d ds ih =>
    cases h : d.diff <;>
      simp [List.filter_cons, List.countP_cons, ItemDiff.toPull, h] at ih ⊢ <;> omega

theorem length_filter_toPush (ds : List ItemDiff) :
    (ds.filter ItemDiff.toPush).length = ds.countP (fun d => d.diff = .localNewer) := by
  rw [List.countP_eq_length_filter]
  rfl

/-- C1: when `diff` returns a list of diffs and every `push` and `pull` that `sync` invokes
succeeds, `sync` returns `noPushed` = the number of `localNewer` diffs, `noPulled` = the number
of `remoteNewer` diffs plus the number of `localMissing` diffs, and `err = nil`.  After `diff`
and the staging of the local texts, `push` is handed exactly the `localNewer` diffs and `pull`
exactly the `remoteNewer` and `localMissing` diffs, each in the order of the list (`push` is
skipped when its set is empty, both when both sets are); an `identical` diff is in neither. -/
theorem sync_partitions_diffs {W : Type} (c : Collab W) (session : Session)
    (twn : tagsWithNotes) (home : String) (quiet : Bool) (st : St W)
    (itemDiffs : List ItemDiff) (w : W)
    (hdiff : c.diff twn home [] st.world = (.ok itemDiffs, w))
    (hpush : itemDiffs.filter ItemDiff.toPush ≠ [] →
      (c.push session (itemDiffs.filter ItemDiff.toPush) (stageAll c itemDiffs w)).1 = none)
    (hpull : (itemDiffs.filter ItemDiff.toPush ≠ [] ∨ itemDiffs.filter ItemDiff.toPull ≠ []) →
      (c.pull (itemDiffs.filter ItemDiff.toPull)
        (worldBeforePull c session itemDiffs w)).1 = none) :
    (sync c session twn home quiet st).1 =
        (itemDiffs.countP (fun d => d.diff = .localNewer),
         itemDiffs.countP (fun d => d.diff = .remoteNewer)
           + itemDiffs.countP (fun d => d.diff = .localMissing), none) ∧
      (sync c session twn home quiet st).2.calls =
        st.calls ++ [Call.diff twn home []] ++ stageCalls itemDiffs
          ++ (if itemDiffs.filter ItemDiff.toPush = [] then []
              else [Call.push session (itemDiffs.filter ItemDiff.toPush)])
          ++ (if itemDiffs.filter ItemDiff.toPush = [] ∧ itemDiffs.filter ItemDiff.toPull = []
              then [] else [Call.pull (itemDiffs.filter ItemDiff.toPull)]) ∧
      (∀ d ∈ itemDiffs, d.diff = .identical →
        d ∉ itemDiffs.filter ItemDiff.toPush ∧ d ∉ itemDiffs.filter ItemDiff.toPull) := by
  have hcount := length_filter_toPull itemDiffs
  have hcountP := length_filter_toPush itemDiffs
  rw [← and_assoc]
  refine ⟨?_, ?_⟩
  · unfold sync
    rw [hdiff]
    simp only [syncLoop_fold, any_sync_eq, St.step]
    by_cases hP : itemDiffs.filter ItemDiff.toPush = [] <;>
      by_cases hL : itemDiffs.filter ItemDiff.toPull = []
    · cases quiet <;> simp [hP, hL, ← hcount, ← hcountP, St.Println]
    · have := hpull (Or.inr hL)
      simp only [worldBeforePull, hP, if_true] at this
      cases quiet <;> simp [hP, hL, ← hcount, ← hcountP, this, St.Println]
    · have h1 := hpush hP
      have h2 := hpull (Or.inl hP)
      simp only [worldBeforePull, hP, if_false, hL] at h2
      cases quiet <;>
        simp [hP, hL, ← hcount, ← hcountP, h1, h2, St.Println, List.length_pos]
    · have h1 := hpush hP
      have h2 := hpull (Or.inl hP)
      simp only [worldBeforePull, hP, if_false] at h2
      cases quiet <;>
        simp [hP, hL, ← hcount, ← hcountP, h1, h2, St.Println, List.length_pos]
  · intro d _ hd
    simp [ItemDiff.toPush, ItemDiff.toPull, hd]

/-! ## `sync`: what the diffs decide -/

/-- C7: when `diff` returns only diffs classified `identical` (or no diff at all), `sync`
returns `(0, 0, nil)`, and the one call it makes is `diff`: neither `push` nor `pull` (nor
`SetText`) is invoked and the world is the one `diff` left. -/
theorem sync_all_identical {W : Type} (c : Collab W) (session : Session)
    (twn : tagsWithNotes) (home : String) (quiet : Bool) (st : St W)
    (itemDiffs : List ItemDiff) (w : W)
    (hdiff : c.diff twn home [] st.world = (.ok itemDiffs, w))
    (hall : ∀ d ∈ itemDiffs, d.diff = .identical) :
    (sync c session twn home quiet st).1 = (0, 0, none) ∧
      (sync c session twn home quiet st).2.calls = st.calls ++ [Call.diff twn home []] ∧
      (sync c session twn home quiet st).2.world = w ∧
      ((callsSince st (sync c session twn home quiet st).2).any Call.isPush = false ∧
        (callsSince st (sync c session twn home quiet st).2).any Call.isPull = false) := by
  have hP : itemDiffs.filter ItemDiff.toPush = [] := by
    rw [List.filter_eq_nil_iff]
    intro d hd
    simp [ItemDiff.toPush, hall d hd]
  have hL : itemDiffs.filter ItemDiff.toPull = [] := by
    rw [List.filter_eq_nil_iff]
    intro d hd
    simp [ItemDiff.toPull, hall d hd]
  unfold sync
  rw [hdiff]
  simp only [syncLoop_fold, any_sync_eq, St.step]
  cases quiet <;>
    simp [hP, hL, St.Println, stageAll, stageCalls, callsSince, Call.isPush, Call.isPull]

/-- C8: when `diff` fails, `sync` makes no other call and returns zero counts; the error is
"no remote dotfiles found" when the message of the error of `diff` contains "tags with notes
not supplied" (the relationship is empty), and the error of `diff` itself otherwise. -/
theorem sync_diff_error {W : Type} (c : Collab W) (session : Session)
    (twn : tagsWithNotes) (home : String) (quiet : Bool) (st : St W)
    (err : GoError) (w : W)
    (hdiff : c.diff twn home [] st.world = (.error err, w)) :
    (strings.Contains err.Error "tags with notes not supplied" = true →
        (sync c session twn home quiet st).1
          = (0, 0, some (errors.New "no remote dotfiles found"))) ∧
      (strings.Contains err.Error "tags with notes not supplied" = false →
        (sync c session twn home quiet st).1 = (0, 0, some err)) ∧
      (sync c session twn home quiet st).2 = ⟨w, st.calls ++ [Call.diff twn home []], st.out⟩ ∧
      ((callsSince st (sync c session twn home quiet st).2).any Call.isPush = false ∧
        (callsSince st (sync c session twn home quiet st).2).any Call.isPull = false) := by
  unfold sync
  rw [hdiff]
  cases h : strings.Contains err.Error "tags with notes not supplied" <;>
    simp [h, St.step, callsSince, Call.isPush, Call.isPull]

/-- C10: when there is a diff classified `localNewer` and `push` fails, `sync` returns the
error of `push` with `noPushed` the size of the push-set and `noPulled = 0`; after `diff` and
the staging of the local texts it calls `push` once and `pull` never. -/
theorem sync_push_error {W : Type} (c : Collab W) (session : Session)
    (twn : tagsWithNotes) (home : String) (quiet : Bool) (st : St W)
    (itemDiffs : List ItemDiff) (w : W) (err : GoError)
    (hdiff : c.diff twn home [] st.world = (.ok itemDiffs, w))
    (hnewer : ∃ d ∈ itemDiffs, d.diff = .localNewer)
    (hpush : (c.push session (itemDiffs.filter ItemDiff.toPush)
      (stageAll c itemDiffs w)).1 = some err) :
    (sync c session twn home quiet st).1 =
        ((itemDiffs.filter ItemDiff.toPush).length, 0, some err) ∧
      callsSince st (sync c session twn home quiet st).2 =
        Call.diff twn home [] :: stageCalls itemDiffs
          ++ [Call.push session (itemDiffs.filter ItemDiff.toPush)] ∧
      (callsSince st (sync c session twn home quiet st).2).countP Call.isPush = 1 ∧
      (callsSince st (sync c session twn home quiet st).2).countP Call.isPull = 0 := by
  have hP : itemDiffs.filter ItemDiff.toPush ≠ [] := by
    obtain ⟨d, hd, hk⟩ := hnewer
    intro h
    rw [List.filter_eq_nil_iff] at h
    exact h d hd (by simp [ItemDiff.toPush, hk])
  have hstage : ∀ ds : List ItemDiff, (stageCalls ds).countP Call.isPush = 0 ∧
      (stageCalls ds).countP Call.isPull = 0 := by
    intro ds
    simp [stageCalls, List.countP_eq_zero, Call.isPush, Call.isPull]
  have hcalls : (sync c session twn home quiet st).2.calls =
      st.calls ++ (Call.diff twn home [] :: stageCalls itemDiffs
          ++ [Call.push session (itemDiffs.filter ItemDiff.toPush)]) ∧
      (sync c session twn home quiet st).1 =
        ((itemDiffs.filter ItemDiff.toPush).length, 0, some err) := by
    unfold sync
    rw [hdiff]
    simp only [syncLoop_fold, any_sync_eq, St.step]
    simp [hP, hpush, List.length_pos]
  refine ⟨hcalls.2, ?_, ?_, ?_⟩ <;>
    simp [callsSince, hcalls.1, List.countP_cons, List.countP_append, hstage, Call.isPush,
      Call.isPull]

/-! ## `Sync` and `Remove`: failed preconditions -/

/-- C3: a failed precondition aborts before any mutation.  When `checkPathsExist`, `get` or
`preflight` fails, `Remove` returns `(0, 0, 0, that error)`, prints nothing, and its only calls
are the `checkPathsExist` and `get` made so far (no `Encrypt`, no `PutItems`).  When `get` or
`preflight` fails, `Sync` returns `(0, 0, that error)`, prints nothing, and its only call is
`get` (no `diff`, `push` or `pull`). -/
theorem precondition_failure_aborts {W : Type} (c : Collab W) (session : Session)
    (home : String) (paths : List String) (quiet : Bool) (st : St W) :
    (∀ err w, c.checkPathsExist (c.dedupe paths) st.world = (some err, w) →
      Remove c session home paths quiet st =
        ((0, 0, 0, some err),
          ⟨w, st.calls ++ [Call.checkPathsExist (c.dedupe paths)], st.out⟩)) ∧
    (∀ err w1 w2, c.checkPathsExist (c.dedupe paths) st.world = (none, w1) →
      c.get session w1 = (.error err, w2) →
      Remove c session home paths quiet st =
        ((0, 0, 0, some err),
          ⟨w2, st.calls ++ [Call.checkPathsExist (c.dedupe paths), Call.get session],
            st.out⟩)) ∧
    (∀ err w1 twn w2, c.checkPathsExist (c.dedupe paths) st.world = (none, w1) →
      c.get session w1 = (.ok twn, w2) → c.preflight twn = some err →
      Remove c session home paths quiet st =
        ((0, 0, 0, some err),
          ⟨w2, st.calls ++ [Call.checkPathsExist (c.dedupe paths), Call.get session],
            st.out⟩)) ∧
    (∀ err w, c.get session st.world = (.error err, w) →
      Sync c session home quiet st =
        ((0, 0, some err), ⟨w, st.calls ++ [Call.get session], st.out⟩)) ∧
    (∀ err twn w, c.get session st.world = (.ok twn, w) → c.preflight twn = some err →
      Sync c session home quiet st =
        ((0, 0, some err), ⟨w, st.calls ++ [Call.get session], st.out⟩)) := by
  refine ⟨?_, ?_, ?_, ?_, ?_⟩
  · intro err w h
    simp [Remove, h, St.step]
  · intro err w1 w2 h1 h2
    simp [Remove, h1, h2, St.step]
  · intro err w1 twn w2 h1 h2 h3
    simp [Remove, h1, h2, h3, St.step]
  · intro err w h
    simp [Sync, h, St.step]
  · intro err twn w h1 h2
    simp [Sync, h1, h2, St.step]

/-! ## `remove`: the one batch -/

theorem remove_loop (items acc : Items) :
    items.foldl (fun acc item => acc ++ [{ item with Deleted := true }]) acc =
      acc ++ items.map (fun item => { item with Deleted := true }) := by
  induction items generalizing acc with
  | nil => simp
  | cons item items ih => simp [ih]

/-- C6: `remove` submits at most one batch.  For an empty list it makes no call at all and
returns `nil`.  For a non-empty list it hands `Encrypt` one entry per item, in order, equal to
the item but for `Deleted = true`; when `Encrypt` fails that error is returned and nothing is
submitted, otherwise what `Encrypt` returned is submitted by one `PutItems` call, whose error
is the result. -/
theorem remove_one_batch {W : Type} (c : Collab W) (session : Session) (items : Items)
    (st : St W) :
    (items = [] → remove c session items st = (none, st)) ∧
    (items ≠ [] →
      (∀ err w,
        c.Encrypt (items.map (fun item => { item with Deleted := true }))
          session.Mk session.Ak st.world = (.error err, w) →
        remove c session items st =
          (some err,
            ⟨w, st.calls ++ [Call.Encrypt (items.map (fun item => { item with Deleted := true }))
              session.Mk session.Ak], st.out⟩)) ∧
      (∀ enc w,
        c.Encrypt (items.map (fun item => { item with Deleted := true }))
          session.Mk session.Ak st.world = (.ok enc, w) →
        remove c session items st =
          ((c.PutItems ⟨enc, session⟩ w).1,
            ⟨(c.PutItems ⟨enc, session⟩ w).2,
              st.calls ++ [Call.Encrypt (items.map (fun item => { item with Deleted := true }))
                session.Mk session.Ak, Call.PutItems ⟨enc, session⟩], st.out⟩))) ∧
    (callsSince st (remove c session items st).2).countP Call.isPutItems ≤ 1 ∧
    (items.map (fun item => { item with Deleted := true })).length = items.length ∧
    (∀ item ∈ items.map (fun item => { item with Deleted := true }), item.Deleted = true) := by
  have hmap : items ≠ [] → items.map (fun item => { item with Deleted := true }) ≠ [] := by
    simp
  refine ⟨?_, ?_, ?_, by simp, by simp⟩
  · rintro rfl
    simp [remove]
  · intro hne
    refine ⟨?_, ?_⟩
    · intro err w h
      simp [remove, remove_loop, hne, h, St.step]
    · intro enc w h
      simp [remove, remove_loop, hne, h, St.step]
  · by_cases hne : items = []
    · subst hne
      simp [remove, callsSince]
    · rcases h : c.Encrypt (items.map (fun item => { item with Deleted := true }))
          session.Mk session.Ak st.world with ⟨_ | enc, w⟩ <;>
        simp [remove, remove_loop, hne, h, St.step, callsSince, List.countP_cons,
          Call.isPutItems]

/-! ## The `quiet` flag -/

/-- C9: `quiet` never changes what `Sync`, `sync` and `Remove` return, nor the calls they make
to the collaborators, nor the world they leave: it only decides whether the summary is
printed. -/
theorem quiet_changes_only_output {W : Type} (c : Collab W) (session : Session)
    (twn : tagsWithNotes) (home : String) (paths : List String) (st : St W) :
    ((Sync c session home true st).1 = (Sync c session home false st).1 ∧
      (Sync c session home true st).2.calls = (Sync c session home false st).2.calls ∧
      (Sync c session home true st).2.world = (Sync c session home false st).2.world) ∧
    ((sync c session twn home true st).1 = (sync c session twn home false st).1 ∧
      (sync c session twn home true st).2.calls = (sync c session twn home false st).2.calls ∧
      (sync c session twn home true st).2.world = (sync c session twn home false st).2.world) ∧
    ((Remove c session home paths true st).1 = (Remove c session home paths false st).1 ∧
      (Remove c session home paths true st).2.calls
        = (Remove c session home paths false st).2.calls ∧
      (Remove c session home paths true st).2.world
        = (Remove c session home paths false st).2.world) := by
  have hsync : ∀ (twn : tagsWithNotes) (st : St W),
      (sync c session twn home true st).1 = (sync c session twn home false st).1 ∧
      (sync c session twn home true st).2.calls = (sync c session twn home false st).2.calls ∧
      (sync c session twn home true st).2.world
        = (sync c session twn home false st).2.world := by
    intro twn st
    unfold sync
    rcases hd : c.diff twn home [] st.world with ⟨_ | ds, w⟩
    · simp
    · simp only [syncLoop_fold, any_sync_eq, St.step]
      by_cases hP : ds.filter ItemDiff.toPush = [] <;>
        by_cases hL : ds.filter ItemDiff.toPull = []
      · simp [hP, hL, St.Println]
      · simp only [hP, hL]
        rcases hl : c.pull (ds.filter ItemDiff.toPull) (stageAll c ds w) with ⟨_ | e, w2⟩ <;>
          simp [hl, St.Println]
      · simp only [hP, hL]
        rcases hp : c.push session (ds.filter ItemDiff.toPush) (stageAll c ds w)
          with ⟨_ | e, w2⟩
        · rcases hl : c.pull [] w2 with ⟨_ | e, w3⟩ <;>
            simp [hp, hl, St.Println, List.length_pos, hP]
        · simp [hp, List.length_pos, hP]
      · simp only [hP, hL]
        rcases hp : c.push session (ds.filter ItemDiff.toPush) (stageAll c ds w)
          with ⟨_ | e, w2⟩
        · rcases hl : c.pull (ds.filter ItemDiff.toPull) w2 with ⟨_ | e, w3⟩ <;>
            simp [hp, hl, St.Println, List.length_pos, hP]
        · simp [hp, List.length_pos, hP]
  refine ⟨?_, hsync twn st, ?_⟩
  · unfold Sync
    rcases hg : c.get session st.world with ⟨_ | remote, w⟩
    · simp
    · simp only []
      cases hp : c.preflight remote
      · simpa using hsync remote _
      · simp
  · rcases hc : c.checkPathsExist (c.dedupe paths) st.world with ⟨_ | e, w⟩
    · rcases hg : c.get session w with ⟨_ | remote, w2⟩
      · simp [Remove, hc, hg, St.step]
      · cases hp : c.preflight remote
        · simp only [Remove, hc, hg, hp, St.step]
          split <;> simp [St.Println]
        · simp [Remove, hc, hg, hp, St.step]
    · simp [Remove, hc]

/-! ## `Remove`: untracked paths and the sole note of a tag -/

theorem removeLoop_untracked {W : Type} (c : Collab W) (home : String) (twn : tagsWithNotes)
    (paths : List String) (acc : RemoveLoop)
    (hnomatch : ∀ p ∈ paths, (c.getItemsToRemove p home twn).2 = []) :
    (paths.foldl (removeLoopBody c home twn) acc).notesToRemove = acc.notesToRemove ∧
      (paths.foldl (removeLoopBody c home twn) acc).notTracked
        = acc.notTracked + paths.length := by
  induction paths generalizing acc with
  | nil => simp
  | cons p ps ih =>
    have hp : (c.getItemsToRemove p home twn).2 = [] := hnomatch p (by simp)
    have := ih (removeLoopBody c home twn acc p) (fun q hq => hnomatch q (by simp [hq]))
    rw [List.foldl_cons, this.1, this.2]
    simp [removeLoopBody, hp]
    omega

theorem findEmptyTags_nil (twn : tagsWithNotes) : findEmptyTags twn [] = [] := by
  simp [findEmptyTags, List.filter_eq_nil_iff, List.isEmpty_iff]

/-- C4: when the requested paths exist, the relationship is fetched and valid and no path
matches a remote note, `Remove` returns `notesRemoved = 0`, `tagsRemoved = 0`, `notTracked` =
the number of paths left after `dedupe` and `err = nil`; its only calls are `checkPathsExist`
and `get`, so nothing is encrypted or submitted and the world is the one `get` left.
`findEmptyTags` is the helper modelled from the spec. -/
theorem Remove_untracked {W : Type} (c : Collab W) (session : Session) (home : String)
    (paths : List String) (quiet : Bool) (st : St W) (w1 w2 : W) (twn : tagsWithNotes)
    (hfind : c.findEmptyTags = findEmptyTags)
    (hcheck : c.checkPathsExist (c.dedupe paths) st.world = (none, w1))
    (hget : c.get session w1 = (.ok twn, w2))
    (hpre : c.preflight twn = none)
    (hnomatch : ∀ p ∈ c.dedupe paths, (c.getItemsToRemove p home twn).2 = []) :
    (Remove c session home paths quiet st).1 = (0, 0, (c.dedupe paths).length, none) ∧
      callsSince st (Remove c session home paths quiet st).2 =
        [Call.checkPathsExist (c.dedupe paths), Call.get session] ∧
      (Remove c session home paths quiet st).2.world = w2 ∧
      (callsSince st (Remove c session home paths quiet st).2).any Call.isPutItems = false := by
  have hloop := removeLoop_untracked c home twn (c.dedupe paths) ⟨[], [], 0⟩ hnomatch
  simp only [Nat.zero_add] at hloop
  have hempty : c.findEmptyTags twn [] = [] := by rw [hfind, findEmptyTags_nil]
  cases quiet <;>
    simp [Remove, hcheck, hget, hpre, St.step, hloop.1, hloop.2, hempty, remove, callsSince,
      St.Println, Call.isPutItems]

theorem Items.DeDupe_replicate (x : Item) (k : Nat) :
    Items.DeDupe (List.replicate (k + 1) x) = [x] := by
  induction k with
  | zero => simp [Items.DeDupe]
  | succ k ih =>
    rw [List.replicate_succ, Items.DeDupe, ih]
    simp

theorem findEmptyTags_sole_note (twn : tagsWithNotes) (t : tagWithNotes) (n : Item)
    (hnotes : t.notes = [n])
    (hsingle : ∀ t' ∈ twn, t' ≠ t → ∀ m ∈ t'.notes, m.UUID ≠ n.UUID) :
    findEmptyTags twn [n] = List.replicate (twn.count t) t.tag := by
  have hfilter : twn.filter (fun t' =>
      !t'.notes.isEmpty &&
        (t'.notes.filter (fun m => !([n].any (fun r => r.UUID = m.UUID)))).isEmpty)
      = twn.filter (fun t' => t' == t) := by
    apply List.filter_congr
    intro t' ht'
    by_cases h : t' = t
    · subst h
      simp [hnotes]
    · have hbeq : (t' == t) = false := by simp [h]
      rw [hbeq, Bool.and_eq_false_iff]
      cases hn : t'.notes with
      | nil => left; rfl
      | cons m ms =>
        right
        have hm : m.UUID ≠ n.UUID := hsingle t' ht' h m (by simp [hn])
        have hm2 : ¬ n.UUID = m.UUID := fun e => hm e.symm
        simp [List.filter_cons, hm2]
  unfold findEmptyTags
  rw [hfilter, List.filter_beq, List.map_replicate]

/-- C5: for a valid relationship in which a tag has exactly one note, and that note is under
no other tag (it has a single path), `Remove` called with the one path that matches that note
hands `Encrypt` exactly that note and that tag, both with `Deleted = true`; what `Encrypt`
returns is submitted in one `PutItems` call, and when that call succeeds `Remove` returns
`notesRemoved = 1`, `tagsRemoved = 1`, `notTracked = 0`, `err = nil`.  The helpers `dedupe`,
`DeDupe` and `findEmptyTags` are the ones modelled from the spec. -/
theorem Remove_sole_note {W : Type} (c : Collab W) (session : Session) (home path : String)
    (quiet : Bool) (st : St W) (w1 w2 : W) (twn : tagsWithNotes) (t : tagWithNotes)
    (n : Item)
    (hdedupe : c.dedupe = dedupe) (hDeDupe : c.DeDupe = Items.DeDupe)
    (hfind : c.findEmptyTags = findEmptyTags)
    (hcheck : c.checkPathsExist [path] st.world = (none, w1))
    (hget : c.get session w1 = (.ok twn, w2))
    (hpre : c.preflight twn = none)
    (ht : t ∈ twn) (hnotes : t.notes = [n])
    (hmatch : (c.getItemsToRemove path home twn).2 = [n])
    (hsingle : ∀ t' ∈ twn, t' ≠ t → ∀ m ∈ t'.notes, m.UUID ≠ n.UUID) :
    (callsSince st (Remove c session home [path] quiet st).2).take 3 =
        [Call.checkPathsExist [path], Call.get session,
          Call.Encrypt [{ n with Deleted := true }, { t.tag with Deleted := true }]
            session.Mk session.Ak] ∧
      (∀ enc w3,
        c.Encrypt [{ n with Deleted := true }, { t.tag with Deleted := true }]
          session.Mk session.Ak w2 = (.ok enc, w3) →
        callsSince st (Remove c session home [path] quiet st).2 =
            [Call.checkPathsExist [path], Call.get session,
              Call.Encrypt [{ n with Deleted := true }, { t.tag with Deleted := true }]
                session.Mk session.Ak,
              Call.PutItems ⟨enc, session⟩] ∧
          (∀ w4, c.PutItems ⟨enc, session⟩ w3 = (none, w4) →
            (Remove c session home [path] quiet st).1 = (1, 1, 0, none) ∧
              (Remove c session home [path] quiet st).2.world = w4)) := by
  have hd : c.dedupe [path] = [path] := by simp [hdedupe, dedupe]
  have hcount : twn.count t = (twn.count t - 1) + 1 := by
    have := List.count_pos_iff.mpr ht
    omega
  have htags : Items.DeDupe (findEmptyTags twn [n]) = [t.tag] := by
    rw [findEmptyTags_sole_note twn t n hnotes hsingle, hcount, Items.DeDupe_replicate]
  have htags2 : findEmptyTags twn [n] ≠ [] := by
    rw [findEmptyTags_sole_note twn t n hnotes hsingle, hcount]
    simp [List.replicate_succ]
  have hn : Items.DeDupe [n] = [n] := by simp [Items.DeDupe]
  refine ⟨?_, ?_⟩
  · rcases henc : c.Encrypt [{ n with Deleted := true }, { t.tag with Deleted := true }]
        session.Mk session.Ak w2 with ⟨err | enc, w3⟩
    · simp [Remove, hd, hcheck, hget, hpre, St.step, removeLoopBody, hmatch, hDeDupe, hfind,
        hn, htags, htags2, remove, henc, callsSince]
    · rcases hput : c.PutItems ⟨enc, session⟩ w3 with ⟨_ | err, w4⟩ <;> cases quiet <;>
        simp [Remove, hd, hcheck, hget, hpre, St.step, removeLoopBody, hmatch, hDeDupe, hfind,
          hn, htags, htags2, remove, henc, hput, callsSince, St.Println]
  · intro enc w3 henc
    refine ⟨?_, ?_⟩
    · rcases hput : c.PutItems ⟨enc, session⟩ w3 with ⟨_ | err, w4⟩ <;> cases quiet <;>
        simp [Remove, hd, hcheck, hget, hpre, St.step, removeLoopBody, hmatch, hDeDupe, hfind,
          hn, htags, htags2, remove, henc, hput, callsSince, St.Println]
    · intro w4 hput
      cases quiet <;>
        simp [Remove, hd, hcheck, hget, hpre, St.step, removeLoopBody, hmatch, hDeDupe, hfind,
          hn, htags, htags2, remove, henc, hput, callsSince, St.Println]

/-! ## `compareNoteWithFile` -/

/-- C2: the classification of `compareNoteWithFile` (for a note present remotely, as in the
tests) is the function `classification` of whether the local file is there, its content `L`,
the remote text `R`, the local modification time `lt` and the remote timestamp `rt`: an
absent file gives `localMissing` whatever the remote note is; `L = R` gives `identical`;
`L ≠ R` gives `localNewer` when `lt` is strictly after `rt` and `remoteNewer` when
`lt ≤ rt`, a tie included.  The result is always one of these four classes. -/
theorem compareNoteWithFile_classification (fs : String → Option LocalFile)
    (store : Nat → NoteContent) (tagTitle path home : String) (remote : Item) :
    (compareNoteWithFile fs store tagTitle path home remote true).diff =
        classification (fs path).isSome ((fs path).elim "" LocalFile.content)
          (store remote.Content).Text ((fs path).elim 0 LocalFile.modTime) remote.UpdatedAt ∧
      (fs path = none → ∀ present remote2,
        (compareNoteWithFile fs store tagTitle path home remote2 present).diff
          = .localMissing) ∧
      (∀ file, fs path = some file →
        (file.content = (store remote.Content).Text →
          (compareNoteWithFile fs store tagTitle path home remote true).diff = .identical) ∧
        (file.content ≠ (store remote.Content).Text → file.modTime > remote.UpdatedAt →
          (compareNoteWithFile fs store tagTitle path home remote true).diff = .localNewer) ∧
        (file.content ≠ (store remote.Content).Text → file.modTime ≤ remote.UpdatedAt →
          (compareNoteWithFile fs store tagTitle path home remote true).diff
            = .remoteNewer)) ∧
      (compareNoteWithFile fs store tagTitle path home remote true).diff ≠ .untracked := by
  refine ⟨?_, ?_, ?_, ?_⟩
  · cases h : fs path with
    | none => simp [compareNoteWithFile, classification, h]
    | some file =>
      simp only [compareNoteWithFile, classification, h]
      by_cases h1 : file.content = (store remote.Content).Text
      · simp [h1]
      · by_cases h2 : file.modTime > remote.UpdatedAt <;> simp [h1, h2]
  · intro h present remote2
    simp [compareNoteWithFile, h]
  · intro file h
    refine ⟨?_, ?_, ?_⟩
    · intro h1
      simp [compareNoteWithFile, h, h1]
    · intro h1 h2
      simp [compareNoteWithFile, h, h1, h2]
    · intro h1 h2
      simp [compareNoteWithFile, h, h1, not_lt.mpr h2]
  · cases h : fs path with
    | none => simp [compareNoteWithFile, h]
    | some file =>
      simp only [compareNoteWithFile, h]
      by_cases h1 : file.content = (store remote.Content).Text
      · simp [h1]
      · by_cases h2 : file.modTime > remote.UpdatedAt <;> simp [h1, h2]

/-! ## Further properties of `sync.go` and `remove.go` -/

/-- A failed `pull` after a successful (or skipped) `push`: `sync` returns the error of `pull`
with `noPushed` the size of the push-set and `noPulled = 0`. -/
theorem sync_pull_error {W : Type} (c : Collab W) (session : Session)
    (twn : tagsWithNotes) (home : String) (quiet : Bool) (st : St W)
    (itemDiffs : List ItemDiff) (w : W) (err : GoError)
    (hdiff : c.diff twn home [] st.world = (.ok itemDiffs, w))
    (hsync : itemDiffs.filter ItemDiff.toPush ≠ [] ∨ itemDiffs.filter ItemDiff.toPull ≠ [])
    (hpush : itemDiffs.filter ItemDiff.toPush ≠ [] →
      (c.push session (itemDiffs.filter ItemDiff.toPush) (stageAll c itemDiffs w)).1 = none)
    (hpull : (c.pull (itemDiffs.filter ItemDiff.toPull)
      (worldBeforePull c session itemDiffs w)).1 = some err) :
    (sync c session twn home quiet st).1 =
      ((itemDiffs.filter ItemDiff.toPush).length, 0, some err) := by
  unfold sync
  rw [hdiff]
  simp only [syncLoop_fold, any_sync_eq, St.step]
  by_cases hP : itemDiffs.filter ItemDiff.toPush = []
  · have hL : itemDiffs.filter ItemDiff.toPull ≠ [] := by
      rcases hsync with h | h
      · exact absurd hP h
      · exact h
    simp only [worldBeforePull, hP, if_true] at hpull
    simp [hP, hL, hpull]
  · have h1 := hpush hP
    simp only [worldBeforePull, hP, if_false] at hpull
    simp [hP, h1, hpull, List.length_pos]

/-- Whenever `sync` returns an error, `noPulled` is zero. -/
theorem sync_error_noPulled {W : Type} (c : Collab W) (session : Session)
    (twn : tagsWithNotes) (home : String) (quiet : Bool) (st : St W)
    (herr : (sync c session twn home quiet st).1.2.2 ≠ none) :
    (sync c session twn home quiet st).1.2.1 = 0 := by
  revert herr
  unfold sync
  rcases hd : c.diff twn home [] st.world with ⟨_ | ds, w⟩
  · simp only []
    split <;> simp
  · simp only [syncLoop_fold, any_sync_eq, St.step]
    split
    · simp
    · split
      · simp
      · split <;> simp

/-- Whenever `Remove` returns an error, `notesremoved` and `tagsRemoved` are zero. -/
theorem Remove_error_counts {W : Type} (c : Collab W) (session : Session) (home : String)
    (paths : List String) (quiet : Bool) (st : St W)
    (herr : (Remove c session home paths quiet st).1.2.2.2 ≠ none) :
    (Remove c session home paths quiet st).1.1 = 0 ∧
      (Remove c session home paths quiet st).1.2.1 = 0 := by
  revert herr
  rcases hc : c.checkPathsExist (c.dedupe paths) st.world with ⟨_ | e, w⟩
  · rcases hg : c.get session w with ⟨_ | remote, w2⟩
    · simp [Remove, hc, hg, St.step]
    · cases hp : c.preflight remote
      · simp only [Remove, hc, hg, hp, St.step]
        split <;> simp
      · simp [Remove, hc, hg, hp, St.step]
  · simp [Remove, hc]

/-- Go `stripTrailingSlash` drops exactly one trailing slash: a path that ends in a slash is
the result followed by a slash, any other path is returned unchanged. -/
theorem stripTrailingSlash_spec (inp : String) :
    (strings.HasSuffix inp "/" = true → stripTrailingSlash inp ++ "/" = inp) ∧
      (strings.HasSuffix inp "/" = false → stripTrailingSlash inp = inp) := by
  refine ⟨?_, ?_⟩
  · intro h
    have hs : ['/'] <:+ inp.data := by
      simpa [strings.HasSuffix] using h
    obtain ⟨pre, hpre⟩ := hs
    have hd : inp.data.dropLast = pre := by
      rw [← hpre]
      simp
    simp only [stripTrailingSlash, h, if_true]
    apply String.ext
    simp [hd, hpre]
  · intro h
    simp [stripTrailingSlash, h]


/-! ## Worked examples -/

/-- Witness of C1: one diff of each class, every call succeeds; `lemon` is pushed, the
`remoteNewer` and the `localMissing` diff are pulled. -/
theorem sync_partitions_diffs_witness :
    (sync (exampleCollab exampleStore) exampleSession fruitAndFood "/home/u" true
        (St.init (exampleWorld [] fruitAndFood exampleDiffs))).1 = (1, 2, none) ∧
      (sync (exampleCollab exampleStore) exampleSession fruitAndFood "/home/u" true
        (St.init (exampleWorld [] fruitAndFood exampleDiffs))).2.calls =
        [Call.diff fruitAndFood "/home/u" [],
          Call.SetText lemonNote "lemon content",
          Call.push exampleSession [lemonDiff .localNewer],
          Call.pull [appleDiff .remoteNewer, lemonDiff .localMissing]] := by
  have h := sync_partitions_diffs (exampleCollab exampleStore) exampleSession fruitAndFood
    "/home/u" true (St.init (exampleWorld [] fruitAndFood exampleDiffs)) exampleDiffs
    (exampleWorld [] fruitAndFood exampleDiffs) rfl (fun _ => rfl) (fun _ => rfl)
  exact ⟨h.1.trans (by decide), h.2.1.trans (by decide)⟩

/-- Witness of C7: two `identical` diffs; `sync` only calls `diff`. -/
theorem sync_all_identical_witness :
    (sync (exampleCollab exampleStore) exampleSession fruitAndFood "/home/u" false
        (St.init (exampleWorld [] fruitAndFood
          [appleDiff .identical, lemonDiff .identical]))).1 = (0, 0, none) ∧
      (sync (exampleCollab exampleStore) exampleSession fruitAndFood "/home/u" false
        (St.init (exampleWorld [] fruitAndFood
          [appleDiff .identical, lemonDiff .identical]))).2.calls
        = [Call.diff fruitAndFood "/home/u" []] := by
  have h := sync_all_identical (exampleCollab exampleStore) exampleSession fruitAndFood
    "/home/u" false
    (St.init (exampleWorld [] fruitAndFood [appleDiff .identical, lemonDiff .identical]))
    [appleDiff .identical, lemonDiff .identical]
    (exampleWorld [] fruitAndFood [appleDiff .identical, lemonDiff .identical]) rfl
    (by decide)
  exact ⟨h.1, h.2.1⟩

/-- Witness of C8: the error of an empty relationship is replaced, any other is kept. -/
theorem sync_diff_error_witness :
    (sync (exampleCollab exampleStore) exampleSession [] "/home/u" false
        (St.init (diffFails "tags with notes not supplied"))).1
        = (0, 0, some (errors.New "no remote dotfiles found")) ∧
      (sync (exampleCollab exampleStore) exampleSession [] "/home/u" false
        (St.init (diffFails "home directory required"))).1
        = (0, 0, some (errors.New "home directory required")) :=
  ⟨(sync_diff_error (exampleCollab exampleStore) exampleSession [] "/home/u" false
      (St.init (diffFails "tags with notes not supplied"))
      (errors.New "tags with notes not supplied") (diffFails "tags with notes not supplied")
      rfl).1 (by decide),
    (sync_diff_error (exampleCollab exampleStore) exampleSession [] "/home/u" false
      (St.init (diffFails "home directory required"))
      (errors.New "home directory required") (diffFails "home directory required")
      rfl).2.1 (by decide)⟩

/-- Witness of C10: `push` fails on the one diff to push; `pull` is not called although two
diffs wait to be pulled. -/
theorem sync_push_error_witness :
    (sync (exampleCollab exampleStore) exampleSession fruitAndFood "/home/u" false
        (St.init pushFails)).1 = (1, 0, some (errors.New "push failed")) ∧
      (sync (exampleCollab exampleStore) exampleSession fruitAndFood "/home/u" false
        (St.init pushFails)).2.calls =
        [Call.diff fruitAndFood "/home/u" [], Call.SetText lemonNote "lemon content",
          Call.push exampleSession [lemonDiff .localNewer]] := by
  have h := sync_push_error (exampleCollab exampleStore) exampleSession fruitAndFood
    "/home/u" false (St.init pushFails) exampleDiffs
    { pushFails with } (errors.New "push failed") rfl
    ⟨lemonDiff .localNewer, by decide, rfl⟩ rfl
  exact ⟨h.1.trans (by decide), by decide⟩

/-- Witness of C3: a requested path is missing, so `Remove` stops after `checkPathsExist`. -/
theorem precondition_failure_aborts_witness :
    Remove (exampleCollab exampleStore) exampleSession "/home/u" ["/home/u/pear"] false
        (St.init (exampleWorld [] rootAndFruit [])) =
      ((0, 0, 0, some (errors.New "PathNotFound: /home/u/pear")),
        ⟨exampleWorld [] rootAndFruit [], [Call.checkPathsExist ["/home/u/pear"]], []⟩) :=
  (precondition_failure_aborts (exampleCollab exampleStore) exampleSession "/home/u"
    ["/home/u/pear"] false (St.init (exampleWorld [] rootAndFruit []))).1
    (errors.New "PathNotFound: /home/u/pear") (exampleWorld [] rootAndFruit []) rfl

/-- Witness of C6: two items are submitted as one batch, both marked deleted. -/
theorem remove_one_batch_witness :
    (remove (exampleCollab exampleStore) exampleSession [appleNote, fruitTag]
        (St.init (exampleWorld [] rootAndFruit []))).2.calls =
      [Call.Encrypt [{ appleNote with Deleted := true }, { fruitTag with Deleted := true }]
          "mk" "ak",
        Call.PutItems ⟨[⟨"note-3", "mk:note-3", true⟩, ⟨"tag-1", "mk:tag-1", true⟩],
          exampleSession⟩] :=
  congrArg (fun r : Option GoError × St World => r.2.calls)
    (((remove_one_batch (exampleCollab exampleStore) exampleSession [appleNote, fruitTag]
      (St.init (exampleWorld [] rootAndFruit []))).2.1 (by decide)).2
      [⟨"note-3", "mk:note-3", true⟩, ⟨"tag-1", "mk:tag-1", true⟩]
      (exampleWorld [] rootAndFruit []) rfl)

/-- Witness of C2: the three cases of `helpers_test.go` and a tie. -/
theorem compareNoteWithFile_classification_witness :
    (compareNoteWithFile (fun _ => some ⟨"apple content", 150⟩) exampleStore "apple"
        "/home/u/apple" "/home/u" appleNote true).diff = .identical ∧
      (compareNoteWithFile (fun _ => some ⟨"lemon content", 150⟩) exampleStore "lemon"
        "/home/u/lemon" "/home/u" lemonNote true).diff = .remoteNewer ∧
      (compareNoteWithFile (fun _ => some ⟨"lemon content", 250⟩) exampleStore "lemon"
        "/home/u/lemon" "/home/u" lemonNote true).diff = .localNewer ∧
      (compareNoteWithFile (fun _ => some ⟨"lemon content", 200⟩) exampleStore "lemon"
        "/home/u/lemon" "/home/u" lemonNote true).diff = .remoteNewer :=
  ⟨((compareNoteWithFile_classification (fun _ => some ⟨"apple content", 150⟩) exampleStore
      "apple" "/home/u/apple" "/home/u" appleNote).2.2.1 _ rfl).1 (by decide),
    ((compareNoteWithFile_classification (fun _ => some ⟨"lemon content", 150⟩) exampleStore
      "lemon" "/home/u/lemon" "/home/u" lemonNote).2.2.1 _ rfl).2.2 (by decide) (by decide),
    ((compareNoteWithFile_classification (fun _ => some ⟨"lemon content", 250⟩) exampleStore
      "lemon" "/home/u/lemon" "/home/u" lemonNote).2.2.1 _ rfl).2.1 (by decide) (by decide),
    ((compareNoteWithFile_classification (fun _ => some ⟨"lemon content", 200⟩) exampleStore
      "lemon" "/home/u/lemon" "/home/u" lemonNote).2.2.1 _ rfl).2.2 (by decide) (by decide)⟩

/-- Witness of C4: the root tag has no note of its own, the path `pear` exists and is
untracked; nothing is staged and nothing is submitted. -/
theorem Remove_untracked_witness :
    (Remove (exampleCollab exampleStore) exampleSession "/home/u"
        ["/home/u/pear", "/home/u/pear"] false
        (St.init (removeWorld ["/home/u/pear"] rootAndFruit))).1 = (0, 0, 1, none) ∧
      (Remove (exampleCollab exampleStore) exampleSession "/home/u"
        ["/home/u/pear", "/home/u/pear"] false
        (St.init (removeWorld ["/home/u/pear"] rootAndFruit))).2.calls =
        [Call.checkPathsExist ["/home/u/pear"], Call.get exampleSession] := by
  have h := Remove_untracked (exampleCollab exampleStore) exampleSession "/home/u"
    ["/home/u/pear", "/home/u/pear"] false (St.init (removeWorld ["/home/u/pear"] rootAndFruit))
    (removeWorld ["/home/u/pear"] rootAndFruit) (removeWorld ["/home/u/pear"] rootAndFruit)
    rootAndFruit rfl rfl rfl (by decide) (by decide)
  exact ⟨h.1.trans (by decide), h.2.1⟩

/-- Witness of C5: `apple` is the only note of `dotfiles.fruit` and is under no other tag; the
note and the tag are submitted as deleted, the root tag is left alone. -/
theorem Remove_sole_note_witness :
    (Remove (exampleCollab exampleStore) exampleSession "/home/u" ["/home/u/fruit/apple"]
        false (St.init (removeWorld ["/home/u/fruit/apple"] rootAndFruit))).1
        = (1, 1, 0, none) ∧
      callsSince (St.init (removeWorld ["/home/u/fruit/apple"] rootAndFruit))
        (Remove (exampleCollab exampleStore) exampleSession "/home/u" ["/home/u/fruit/apple"]
          false (St.init (removeWorld ["/home/u/fruit/apple"] rootAndFruit))).2 =
        [Call.checkPathsExist ["/home/u/fruit/apple"], Call.get exampleSession,
          Call.Encrypt [{ appleNote with Deleted := true }, { fruitTag with Deleted := true }]
            "mk" "ak",
          Call.PutItems ⟨appleBatch, exampleSession⟩] := by
  have h := (Remove_sole_note (exampleCollab exampleStore) exampleSession "/home/u"
    "/home/u/fruit/apple" false (St.init (removeWorld ["/home/u/fruit/apple"] rootAndFruit))
    (removeWorld ["/home/u/fruit/apple"] rootAndFruit)
    (removeWorld ["/home/u/fruit/apple"] rootAndFruit)
    rootAndFruit ⟨fruitTag, [appleNote]⟩ appleNote rfl rfl rfl rfl rfl (by decide)
    (by decide) rfl (by decide) (by decide)).2 appleBatch
    (removeWorld ["/home/u/fruit/apple"] rootAndFruit) rfl
  exact ⟨(h.2 { removeWorld ["/home/u/fruit/apple"] rootAndFruit with
      submitted := [⟨appleBatch, exampleSession⟩] } rfl).1, h.1⟩


/-- The push of `lemon` succeeds, the pull that follows fails. -/
theorem sync_pull_error_witness :
    (sync (exampleCollab exampleStore) exampleSession fruitAndFood "/home/u" false
        (St.init pullFails)).1 = (1, 0, some (errors.New "pull failed")) := by
  have h := sync_pull_error (exampleCollab exampleStore) exampleSession fruitAndFood
    "/home/u" false (St.init pullFails) exampleDiffs
    { pullFails with } (errors.New "pull failed") rfl (Or.inl (by decide)) (fun _ => rfl) rfl
  exact h.trans (by decide)

/-- After a failed `push` nothing counts as pulled. -/
theorem sync_error_noPulled_witness :
    (sync (exampleCollab exampleStore) exampleSession fruitAndFood "/home/u" false
        (St.init pushFails)).1.2.1 = 0 :=
  sync_error_noPulled (exampleCollab exampleStore) exampleSession fruitAndFood "/home/u"
    false (St.init pushFails) (by decide)

/-- The submission of `apple` and its tag fails, so nothing counts as removed. -/
theorem Remove_error_counts_witness :
    (Remove (exampleCollab exampleStore) exampleSession "/home/u" ["/home/u/fruit/apple"]
        false (St.init putFails)).1.1 = 0 ∧
      (Remove (exampleCollab exampleStore) exampleSession "/home/u" ["/home/u/fruit/apple"]
        false (St.init putFails)).1.2.1 = 0 :=
  Remove_error_counts (exampleCollab exampleStore) exampleSession "/home/u"
    ["/home/u/fruit/apple"] false (St.init putFails) (by decide)

end SnDotfiles
